import Mathlib

/-!
Shallow embedding of the Roomba simulation (src/src/agents/roomba.py,
src/src/agents/cell.py, src/src/model/room.py) and verification of the
spec claims against it.

Conventions of the embedding:
* Python integers are `Int`, counters are `Nat`; grid positions are `Int × Int`.
* The mesa `MultiGrid` cell layer is a total function `Int × Int → CellState`
  together with `width`/`height` bounds; `get_cell_at_pos` returns `none`
  out of bounds, exactly as the Python helper returns `None`.
* Python `set`s of positions are duplicate-free lists (`insertPos` adds only
  if absent, removal filters all occurrences); iteration order of a Python
  `set` is unspecified, so order-sensitive reads (`min(..., key=...)`) are
  determinized to the list order.
* The numpy knowledge matrix is a `List (List CellKnowledge)`; indexing
  follows numpy: a negative index wraps once from the end, an index out of
  range leaves the matrix unchanged on write and reads `UNKNOWN` (the
  Python code would raise there; no run used in a theorem reaches it).
* The unbounded `while` loops of `find_path_to_target` are given fuel; the
  open set of the Python implementation only ever holds the start position
  and its four neighbours (neighbour generation calls
  `self.get_possible_moves()`, which reads `self.pos`), so every run
  terminates within far fewer iterations than the supplied fuel.
-/

namespace RoombaSim

/-- Cell states of `src/agents/cell.py` (`"clean" | "dirty" | "obstacle" |
"charging_station"`). -/
inductive CellState where
  | clean
  | dirty
  | obstacle
  | charging_station
deriving DecidableEq, Repr

/-- The `RoombaActions` enum of `roomba.py`. -/
inductive RoombaActions where
  | MOVE_UP
  | MOVE_DOWN
  | MOVE_LEFT
  | MOVE_RIGHT
  | CLEAN
  | CHARGE
  | IDLE
deriving DecidableEq, Repr

/-- The `CellKnowledge` enum of `roomba.py`. -/
inductive CellKnowledge where
  | UNKNOWN
  | WALL
  | OBSTACLE
  | CHARGING_STATION
  | EMPTY
  | DIRTY
deriving DecidableEq, Repr

abbrev Pos := Int × Int

/-- The shared grid: mesa `MultiGrid`'s cell layer plus its bounds. -/
structure World where
  width : Int
  height : Int
  cell : Pos → CellState

/-- Pointwise update of the cell layer (`cell.set_state` on the cell at `p`,
or a driver placement). -/
def setCell (g : Pos → CellState) (p : Pos) (v : CellState) : Pos → CellState :=
  fun q => if q = p then v else g q

/-- State of one `Roomba` agent (`Roomba.__init__`), together with the shared
grid it acts on.  `BATTERY_CRITICAL` is per-agent mutable state (line 334
increments it); the remaining constants never change and are top-level
definitions below. -/
structure RState where
  world : World
  battery : Int
  pos : Pos
  home_charger : Pos
  last_action : RoombaActions
  movements : Nat
  BATTERY_CRITICAL : Int
  knowledge_matrix : List (List CellKnowledge)
  matrix_center : Nat × Nat
  dirty_cells_memory : List Pos
  visited_cells : List Pos
  explored_cells : List Pos

def BATTERY_SAFE : Int := 90
def MOVE_COST : Int := 1
def CLEAN_COST : Int := 2
def CHARGE_RATE : Int := 10

/-- Fresh agent as built by `Roomba.__init__` followed by the driver's
placement (`roomba.pos = initial_pos; roomba.home_charger = initial_pos`). -/
def initialRoomba (w : World) (p : Pos) : RState :=
  { world := w
    battery := 100
    pos := p
    home_charger := p
    last_action := RoombaActions.IDLE
    movements := 0
    BATTERY_CRITICAL := 20
    knowledge_matrix := List.replicate 3 (List.replicate 3 CellKnowledge.UNKNOWN)
    matrix_center := (1, 1)
    dirty_cells_memory := []
    visited_cells := []
    explored_cells := [] }

/-- Python `set.add`: append only if absent. -/
def insertPos (p : Pos) (l : List Pos) : List Pos :=
  if p ∈ l then l else l ++ [p]

/-- Python `set.remove` / `set.discard`: drop the element. -/
def removePos (p : Pos) (l : List Pos) : List Pos :=
  l.filter (fun q => decide (q ≠ p))

/-- `Roomba.is_valid_position`. -/
def is_valid_position (st : RState) (p : Pos) : Bool :=
  decide (0 ≤ p.1 ∧ p.1 < st.world.width ∧ 0 ≤ p.2 ∧ p.2 < st.world.height)

/-- `Roomba.get_cell_at_pos`: the state-bearing cell content at `p`, `none`
out of bounds. -/
def get_cell_at_pos (st : RState) (p : Pos) : Option CellState :=
  if is_valid_position st p then some (st.world.cell p) else none

/-- The neighbour offsets `[(0, 1), (0, -1), (1, 0), (-1, 0)]` used
throughout `roomba.py`. -/
def dirs4 : List Pos := [(0, 1), (0, -1), (1, 0), (-1, 0)]

/-- `Roomba.get_possible_moves`: in-bounds, non-obstacle neighbours of the
agent's *current* position, in `dirs4` order. -/
def get_possible_moves (st : RState) : List Pos :=
  dirs4.filterMap (fun d =>
    let new_pos : Pos := (st.pos.1 + d.1, st.pos.2 + d.2)
    if is_valid_position st new_pos && decide (st.world.cell new_pos ≠ CellState.obstacle) then
      some new_pos
    else none)

/-- numpy index semantics: a negative index wraps once from the end;
anything further out is rejected. -/
def npIdx (n : Nat) (i : Int) : Option Nat :=
  if 0 ≤ i then
    if i < (n : Int) then some i.toNat else none
  else
    if -(n : Int) ≤ i then some ((n : Int) + i).toNat else none

def kmSetRow (row : List CellKnowledge) (j : Int) (v : CellKnowledge) : List CellKnowledge :=
  match npIdx row.length j with
  | some c => row.set c v
  | none => row

/-- `self.knowledge_matrix[i, j] = v` with numpy indexing. -/
def kmSet (m : List (List CellKnowledge)) (i j : Int) (v : CellKnowledge) :
    List (List CellKnowledge) :=
  match npIdx m.length i with
  | some r => m.set r (kmSetRow (m.getD r []) j v)
  | none => m

/-- `self.knowledge_matrix[i, j]` with numpy indexing. -/
def kmGet (m : List (List CellKnowledge)) (i j : Int) : CellKnowledge :=
  match npIdx m.length i with
  | some r =>
    let row := m.getD r []
    match npIdx row.length j with
    | some c => row.getD c CellKnowledge.UNKNOWN
    | none => CellKnowledge.UNKNOWN
  | none => CellKnowledge.UNKNOWN

/-- Number of columns, `self.knowledge_matrix.shape[1]` (all rows have equal
length by construction). -/
def kmCols (m : List (List CellKnowledge)) : Nat := (m.headD []).length

inductive KDirection where
  | north
  | south
  | west
  | east

/-- `Roomba.expand_knowledge_matrix`. -/
def expand_knowledge_matrix (st : RState) (d : KDirection) : RState :=
  let cols := kmCols st.knowledge_matrix
  match d with
  | KDirection.north =>
    { st with
      knowledge_matrix := List.replicate cols CellKnowledge.UNKNOWN :: st.knowledge_matrix
      matrix_center := (st.matrix_center.1 + 1, st.matrix_center.2) }
  | KDirection.south =>
    { st with
      knowledge_matrix := st.knowledge_matrix ++ [List.replicate cols CellKnowledge.UNKNOWN] }
  | KDirection.west =>
    { st with
      knowledge_matrix := st.knowledge_matrix.map (fun r => CellKnowledge.UNKNOWN :: r)
      matrix_center := (st.matrix_center.1, st.matrix_center.2 + 1) }
  | KDirection.east =>
    { st with
      knowledge_matrix := st.knowledge_matrix.map (fun r => r ++ [CellKnowledge.UNKNOWN]) }

/-- Lines 132-147 of `update_knowledge`: record the *current* cell at matrix
index `(mi, mj)`; a dirty current cell is added to `dirty_cells_memory`, a
clean one is removed from it. -/
def senseCurrent (st : RState) (mi mj : Int) : RState :=
  match get_cell_at_pos st st.pos with
  | none => st
  | some CellState.obstacle =>
    { st with knowledge_matrix := kmSet st.knowledge_matrix mi mj CellKnowledge.OBSTACLE }
  | some CellState.charging_station =>
    { st with knowledge_matrix := kmSet st.knowledge_matrix mi mj CellKnowledge.CHARGING_STATION }
  | some CellState.dirty =>
    { st with
      knowledge_matrix := kmSet st.knowledge_matrix mi mj CellKnowledge.DIRTY
      dirty_cells_memory := insertPos st.pos st.dirty_cells_memory }
  | some CellState.clean =>
    { st with
      knowledge_matrix := kmSet st.knowledge_matrix mi mj CellKnowledge.EMPTY
      dirty_cells_memory := removePos st.pos st.dirty_cells_memory }

/-- Lines 149-170 of `update_knowledge`: record one *adjacent* world position
`wp` at matrix index `(mi, mj)`.  A dirty neighbour is added to
`dirty_cells_memory`; a clean neighbour is recorded `EMPTY` but — unlike the
current cell — never removed from `dirty_cells_memory`.  Out-of-bounds
neighbours are recorded `WALL` and not marked explored. -/
def senseAdjacent (st : RState) (mi mj : Int) (wp : Pos) : RState :=
  match get_cell_at_pos st wp with
  | none =>
    { st with knowledge_matrix := kmSet st.knowledge_matrix mi mj CellKnowledge.WALL }
  | some CellState.obstacle =>
    { st with
      explored_cells := insertPos wp st.explored_cells
      knowledge_matrix := kmSet st.knowledge_matrix mi mj CellKnowledge.OBSTACLE }
  | some CellState.charging_station =>
    { st with
      explored_cells := insertPos wp st.explored_cells
      knowledge_matrix := kmSet st.knowledge_matrix mi mj CellKnowledge.CHARGING_STATION }
  | some CellState.dirty =>
    { st with
      explored_cells := insertPos wp st.explored_cells
      knowledge_matrix := kmSet st.knowledge_matrix mi mj CellKnowledge.DIRTY
      dirty_cells_memory := insertPos wp st.dirty_cells_memory }
  | some CellState.clean =>
    { st with
      explored_cells := insertPos wp st.explored_cells
      knowledge_matrix := kmSet st.knowledge_matrix mi mj CellKnowledge.EMPTY }

/-- Lines 123-130 of `update_knowledge`: expand the matrix in whichever of
the four directions leaves less than a 2-cell margin around the captured
`(mx, my)` index, in north/south/west/east order, each bound re-read after
the previous expansion. -/
def expandStage (st : RState) (mx my : Nat) : RState :=
  let st2 := if mx ≤ 1 then expand_knowledge_matrix st KDirection.north else st
  let st3 :=
    if (mx : Int) ≥ (st2.knowledge_matrix.length : Int) - 2 then
      expand_knowledge_matrix st2 KDirection.south
    else st2
  let st4 := if my ≤ 1 then expand_knowledge_matrix st3 KDirection.west else st3
  if (my : Int) ≥ (kmCols st4.knowledge_matrix : Int) - 2 then
    expand_knowledge_matrix st4 KDirection.east
  else st4

/-- `Roomba.update_knowledge`.  Note the faithful quirk: `matrix_x`/`matrix_y`
are captured from `matrix_center` *before* the expansion calls (which shift
the centre when expanding north or west), and all writes use those stale
values; the centre itself is never moved when the agent moves. -/
def update_knowledge (st0 : RState) : RState :=
  let st1 := { st0 with visited_cells := insertPos st0.pos st0.visited_cells }
  let mx : Nat := st1.matrix_center.1
  let my : Nat := st1.matrix_center.2
  let st5 := expandStage st1 mx my
  let st6 := senseCurrent st5 (mx : Int) (my : Int)
  let st7 := senseAdjacent st6 (mx : Int) ((my : Int) + 1) (st0.pos.1, st0.pos.2 + 1)
  let st8 := senseAdjacent st7 (mx : Int) ((my : Int) - 1) (st0.pos.1, st0.pos.2 - 1)
  let st9 := senseAdjacent st8 ((mx : Int) + 1) (my : Int) (st0.pos.1 + 1, st0.pos.2)
  senseAdjacent st9 ((mx : Int) - 1) (my : Int) (st0.pos.1 - 1, st0.pos.2)

/-- The Manhattan-distance heuristic of `find_path_to_target` (also used for
nearest-dirt / nearest-frontier selection and the emergency move ranking). -/
def manhattan (a b : Pos) : Int := |a.1 - b.1| + |a.2 - b.2|

/-- `is_valid_move` inside `find_path_to_target`. -/
def is_valid_move (st : RState) (p : Pos) : Bool :=
  is_valid_position st p && decide (get_cell_at_pos st p ≠ some CellState.obstacle)

/-- Python dict lookup on an association list. -/
def dictGet (l : List (Pos × Int)) (p : Pos) : Option Int :=
  (l.find? (fun e => decide (e.1 = p))).map (fun e => e.2)

/-- Python dict assignment on an association list. -/
def dictSet (l : List (Pos × Int)) (p : Pos) (v : Int) : List (Pos × Int) :=
  (p, v) :: l.filter (fun e => decide (e.1 ≠ p))

def cameGet (l : List (Pos × Pos)) (p : Pos) : Option Pos :=
  (l.find? (fun e => decide (e.1 = p))).map (fun e => e.2)

def cameSet (l : List (Pos × Pos)) (p : Pos) (v : Pos) : List (Pos × Pos) :=
  (p, v) :: l.filter (fun e => decide (e.1 ≠ p))

/-- The search bookkeeping of `find_path_to_target`: `open_set` is the
linear-scanned list of `(f_score, position)` pairs, the rest are dicts. -/
structure AStarData where
  open_set : List (Int × Pos)
  came_from : List (Pos × Pos)
  g_score : List (Pos × Int)
  f_score : List (Pos × Int)

/-- `min(open_set, key=lambda x: x[0])`: first entry with minimal f-score. -/
def minByFst : List (Int × Pos) → Option (Int × Pos)
  | [] => none
  | x :: xs => some (xs.foldl (fun b y => if y.1 < b.1 then y else b) x)

/-- The `while current in came_from` path reconstruction, accumulating the
appended nodes in order; the caller appends the start and reverses. -/
def reconstructPath : Nat → List (Pos × Pos) → Pos → List Pos → List Pos
  | 0, _, _, acc => acc
  | fuel + 1, cf, current, acc =>
    match cameGet cf current with
    | some prev => reconstructPath fuel cf prev (acc ++ [current])
    | none => acc

/-- Relaxation of one neighbour inside the `for next_pos in
self.get_possible_moves()` loop of `find_path_to_target`. -/
def relaxNeighbor (st : RState) (target current : Pos) (a : AStarData) (next_pos : Pos) :
    AStarData :=
  if is_valid_move st next_pos then
    let tentative_g_score := (dictGet a.g_score current).getD 0 + 1
    let improve : Bool :=
      match dictGet a.g_score next_pos with
      | none => true
      | some g => decide (tentative_g_score < g)
    if improve then
      let fs := tentative_g_score + manhattan next_pos target
      { open_set := a.open_set ++ [(fs, next_pos)]
        came_from := cameSet a.came_from next_pos current
        g_score := dictSet a.g_score next_pos tentative_g_score
        f_score := dictSet a.f_score next_pos fs }
    else a
  else a

/-- The `while open_set` loop of `find_path_to_target`.  Faithful quirk: the
neighbours relaxed at every iteration are `get_possible_moves st` — the
neighbours of the *agent's fixed position* `st.pos`, not of `current`. -/
def findPathLoop (st : RState) (target : Pos) : Nat → AStarData → Option (List Pos)
  | 0, _ => none
  | fuel + 1, a =>
    match minByFst a.open_set with
    | none => none
    | some fc =>
      let current := fc.2
      if current = target then
        some (((reconstructPath (a.came_from.length + 1) a.came_from current []) ++
          [st.pos]).reverse)
      else
        let a2 := { a with open_set := a.open_set.filter (fun e => decide (e.2 ≠ current)) }
        let a3 := (get_possible_moves st).foldl (relaxNeighbor st target current) a2
        findPathLoop st target fuel a3

/-- `Roomba.find_path_to_target`.  The fuel of 1000 is far beyond any possible
iteration count: after the first expansion the open set can only hold the at
most four neighbours of `st.pos`, each relaxed at most twice. -/
def find_path_to_target (st : RState) (target : Pos) : Option (List Pos) :=
  findPathLoop st target 1000
    { open_set := [(0, st.pos)]
      came_from := []
      g_score := [(st.pos, 0)]
      f_score := [(st.pos, manhattan st.pos target)] }

/-- The `path_cost` computed by `should_return_to_charger`: A* path length
(the path includes the start) times the move cost, falling back to the
Manhattan distance when no path is found. -/
def path_cost_to_charger (st : RState) : Int :=
  match find_path_to_target st st.home_charger with
  | some path => (path.length : Int) * MOVE_COST
  | none => manhattan st.pos st.home_charger * MOVE_COST

/-- `Roomba.should_return_to_charger`: critical battery, or battery at most
`path_cost + 15` (the safety margin) plus the critical threshold. -/
def should_return_to_charger (st : RState) : Bool :=
  if st.battery ≤ st.BATTERY_CRITICAL then true
  else decide (st.battery ≤ path_cost_to_charger st + 15 + st.BATTERY_CRITICAL)

/-- `Roomba.charge_battery`. -/
def charge_battery (st : RState) : RState × Bool :=
  match get_cell_at_pos st st.pos with
  | some CellState.charging_station =>
    ({ st with
       battery := min 100 (st.battery + CHARGE_RATE)
       last_action := RoombaActions.CHARGE }, true)
  | _ => (st, false)

/-- `Roomba.move`: battery check, bounds check, obstacle check, then the
mutation plus a knowledge-sensing pass; any failed check returns `False`
without touching anything. -/
def move (st : RState) (new_pos : Pos) : RState × Bool :=
  if st.battery < MOVE_COST then (st, false)
  else if is_valid_position st new_pos = false then (st, false)
  else if st.world.cell new_pos = CellState.obstacle then (st, false)
  else
    (update_knowledge
      { st with
        pos := new_pos
        battery := st.battery - MOVE_COST
        movements := st.movements + 1 }, true)

/-- `Roomba.clean_current_cell`.  Faithful quirks: the battery guard is
`battery <= 0` (not `battery < CLEAN_COST`) and the decrement is `1` (not
`CLEAN_COST = 2`). -/
def clean_current_cell (st : RState) : RState × Bool :=
  if st.battery ≤ 0 then (st, false)
  else
    match get_cell_at_pos st st.pos with
    | some CellState.dirty =>
      ({ st with
         world := { st.world with cell := setCell st.world.cell st.pos CellState.clean }
         battery := st.battery - 1
         last_action := RoombaActions.CLEAN
         dirty_cells_memory := removePos st.pos st.dirty_cells_memory }, true)
    | _ => (st, false)

/-- `Roomba.get_unexplored_frontier`. -/
def get_unexplored_frontier (st : RState) : List Pos :=
  st.explored_cells.foldl (fun acc e =>
    dirs4.foldl (fun acc2 d =>
      let adj_pos : Pos := (e.1 + d.1, e.2 + d.2)
      if decide (adj_pos ∉ st.explored_cells) && is_valid_position st adj_pos then
        insertPos adj_pos acc2
      else acc2) acc) []

/-- `min(candidates, key=lambda pos: manhattan(pos, p))`: first minimum. -/
def nearestTo (p : Pos) : List Pos → Pos
  | [] => (0, 0)
  | x :: xs => xs.foldl (fun b y => if manhattan y p < manhattan b p then y else b) x

/-- Ascending-order comparison of the `(distance, position)` pairs built in
the emergency branch of `step`; Python's tuple comparison is lexicographic. -/
def moveLeb (a b : Int × Pos) : Bool :=
  if a.1 < b.1 then true
  else if b.1 < a.1 then false
  else if a.2.1 < b.2.1 then true
  else if b.2.1 < a.2.1 then false
  else decide (a.2.2 ≤ b.2.2)

def insertSortedMove (x : Int × Pos) : List (Int × Pos) → List (Int × Pos)
  | [] => [x]
  | y :: ys => if moveLeb x y then x :: y :: ys else y :: insertSortedMove x ys

/-- `moves_with_distances.sort()` — the keys `(distance, position)` are
pairwise distinct, so any correct ascending sort produces the Python list. -/
def sortPairs (l : List (Int × Pos)) : List (Int × Pos) :=
  l.foldr insertSortedMove []

/-- The ranked emergency move candidates of `step` lines 321-328. -/
def sortedMoves (st : RState) (pm : List Pos) : List Pos :=
  (sortPairs (pm.map (fun p => (manhattan p st.home_charger, p)))).map (fun e => e.2)

/-- The `for _, move_pos in moves_with_distances` loop of `step`: attempt the
ranked moves in order, stopping at the first success; each attempt is guarded
by `battery >= MOVE_COST`. -/
def tryMoves : List Pos → RState → Option RState
  | [], _ => none
  | p :: rest, st =>
    if MOVE_COST ≤ st.battery then
      if (move st p).2 then some (move st p).1 else tryMoves rest (move st p).1
    else tryMoves rest st

/-- Which branch of `Roomba.step` produced the tick's outcome (an observer
added by the embedding; the Python method communicates this only through its
side effects). -/
inductive Branch where
  | charge
  | returnMove
  | returnStuck
  | clean
  | pursue
  | explore
  | randomMove
  | idle
deriving DecidableEq, Repr

/-- Lines 308-315 of `step`: follow the planned path to the charger if it has
a next step the agent can afford and currently reach. -/
def pathMoveStep (st : RState) : Option RState :=
  let path := (find_path_to_target st st.home_charger).getD []
  if 1 < path.length ∧ MOVE_COST ≤ st.battery then
    let next_pos := path.getD 1 ((0 : Int), (0 : Int))
    if next_pos ∈ get_possible_moves st then some (move st next_pos).1 else none
  else none

/-- The whole return-to-charger branch of `step` (lines 307-335).  Returns
`none` exactly when control falls through to the cleaning branch: either
`should_return_to_charger` is false, or — the faithful quirk — the branch was
taken but `get_possible_moves` is empty, in which case the
`BATTERY_CRITICAL += 5` relaxation (which sits inside `if possible_moves:`)
is skipped and the method keeps going. -/
def returnStep (st : RState) : Option (RState × Branch) :=
  if should_return_to_charger st then
    match pathMoveStep st with
    | some st2 => some (st2, Branch.returnMove)
    | none =>
      let pm := get_possible_moves st
      if pm = [] then none
      else
        match tryMoves (sortedMoves st pm) st with
        | some st2 => some (st2, Branch.returnMove)
        | none => some ({ st with BATTERY_CRITICAL := st.BATTERY_CRITICAL + 5 }, Branch.returnStuck)
  else none

/-- Lines 337-367 of `step`: clean, pursue remembered dirt, explore the
frontier, or move randomly; `choice` stands for `self.random.choice`. -/
def stepRest (choice : List Pos → Pos) (st : RState) : RState × Branch :=
  match clean_current_cell st with
  | (st2, true) => (st2, Branch.clean)
  | (st2, false) =>
    let pursue : Option (RState × Branch) :=
      if st2.dirty_cells_memory ≠ [] then
        let nearest_dirty := nearestTo st2.pos st2.dirty_cells_memory
        let path := (find_path_to_target st2 nearest_dirty).getD []
        if 1 < path.length then
          some ((move st2 (path.getD 1 ((0 : Int), (0 : Int)))).1, Branch.pursue)
        else none
      else none
    match pursue with
    | some r => r
    | none =>
      let frontier := get_unexplored_frontier st2
      let explore : Option (RState × Branch) :=
        if frontier ≠ [] then
          let nearest_frontier := nearestTo st2.pos frontier
          let path := (find_path_to_target st2 nearest_frontier).getD []
          if 1 < path.length then
            some ((move st2 (path.getD 1 ((0 : Int), (0 : Int)))).1, Branch.explore)
          else none
        else none
      match explore with
      | some r => r
      | none =>
        let pm := get_possible_moves st2
        if pm ≠ [] then ((move st2 (choice pm)).1, Branch.randomMove) else (st2, Branch.idle)

/-- `Roomba.step`: sense, then the branch cascade. -/
def step (choice : List Pos → Pos) (st0 : RState) : RState × Branch :=
  let st := update_knowledge st0
  if st.pos = st.home_charger ∧ st.battery < BATTERY_SAFE then
    ((charge_battery st).1, Branch.charge)
  else
    match returnStep st with
    | some r => r
    | none => stepRest choice st

/-! ## The simulation driver (`src/src/model/room.py`) -/

/-- Constructor arguments of `RoomModel.__init__`; the Python float
percentages are rationals here. -/
structure RoomConfig where
  width : Nat
  height : Nat
  dirty_percent : ℚ
  obstacle_percent : ℚ
  n_agents : Nat
  max_time : Nat

/-- Python `int(total * p)` for an exact rational `p`: `total * p` equals
`(total * p.num) / p.den` and `int()` truncates toward zero, which is
`Int.tdiv` (the Python float is idealized as an exact rational; computing
from the raw numerator and denominator keeps the definition
kernel-evaluable). -/
def pyIntMul (total : Int) (p : ℚ) : Int := (total * p.num).tdiv (p.den : Int)

/-- The stream of draws consumed from a pseudo-random generator.  `room.py`'s
`init_grid` draws from the process-global `random` module (line 7
`import random`, `random.sample` at lines 101 and 122), so this stream is
*global* state, independent of any seed given to the mesa model. -/
abbrev Rng := List Nat

/-- Deterministic model of the Python stdlib `random.sample(population, k)`:
`k` distinct elements chosen by consuming draws from the generator stream,
in selection order.  The stdlib sampler is external code; all the claims
need is that it is a deterministic function of the population and of the
generator state it consumes. -/
def samplePos : List Pos → Nat → Rng → List Pos × Rng
  | _, 0, g => ([], g)
  | l, k + 1, g =>
    if l.length = 0 then ([], g)
    else
      let i := g.headD 0 % l.length
      let x := l.getD i (0, 0)
      let rest := samplePos (l.eraseIdx i) k g.tail
      (x :: rest.1, rest.2)

/-- `[(x, y) for x in range(width) for y in range(height)]`. -/
def allPositions (w h : Nat) : List Pos :=
  (List.range w).flatMap (fun x => (List.range h).map (fun y => (Int.ofNat x, Int.ofNat y)))

/-- Result of `RoomModel.init_grid`. -/
structure GridInit where
  grid : Pos → CellState
  clean_cells_count : Int
  initial_dirty_cells : Nat
  rng : Rng

/-- `RoomModel.init_grid`: all cells clean; with a single agent, `(1, 1)`
becomes the charging station and is reserved; `min`-clamped numbers of dirty
cells and then obstacles are sampled from the global generator.  There is no
validation of the percentages anywhere — over-full configurations are
silently clamped. -/
def init_grid (cfg : RoomConfig) (rng : Rng) : GridInit :=
  let grid0 : Pos → CellState := fun _ => CellState.clean
  let grid1 :=
    if cfg.n_agents = 1 then setCell grid0 (1, 1) CellState.charging_station else grid0
  let clean0 : Int := (cfg.width * cfg.height : Nat)
  let total0 : Int := (cfg.width * cfg.height : Nat)
  let positions0 := allPositions cfg.width cfg.height
  let positions1 :=
    if cfg.n_agents = 1 then positions0.erase ((1 : Int), (1 : Int)) else positions0
  let total1 : Int := if cfg.n_agents = 1 then total0 - 1 else total0
  let dirty_cells : Int := min (pyIntMul total1 cfg.dirty_percent) (positions1.length : Int)
  let dp := if 0 < dirty_cells then samplePos positions1 dirty_cells.toNat rng else ([], rng)
  let dirty_positions := dp.1
  let grid2 := dirty_positions.foldl (fun g p => setCell g p CellState.dirty) grid1
  let positions2 := dirty_positions.foldl (fun ps p => ps.erase p) positions1
  let clean1 : Int := clean0 - dirty_positions.length
  let initial_dirty : Nat := if 0 < dirty_cells then dirty_cells.toNat else 0
  let remaining : Int := (positions2.length : Int)
  let obstacle_cells : Int := min (pyIntMul total1 cfg.obstacle_percent) remaining
  let ob :=
    if 0 < obstacle_cells then
      let clean_positions := positions2.filter (fun p => decide (grid2 p = CellState.clean))
      samplePos clean_positions obstacle_cells.toNat dp.2
    else ([], dp.2)
  let grid3 := ob.1.foldl (fun g p => setCell g p CellState.obstacle) grid2
  { grid := grid3
    clean_cells_count := clean1 - ob.1.length
    initial_dirty_cells := initial_dirty
    rng := ob.2 }

/-- The driver state the claims inspect: bounds, the shared grid, the
`running` flag (`self.running = True` in `__init__`, set to `False` only by
`step` once `current_time >= max_time`), and the charger positions at which
the agents were created with full battery. -/
structure RoomModelState where
  width : Nat
  height : Nat
  n_agents : Nat
  max_time : Nat
  current_time : Nat
  running : Bool
  grid : Pos → CellState
  clean_cells_count : Int
  initial_dirty_cells : Nat
  roomba_positions : List Pos

/-- Model of the *injected* seedable source (mesa's per-model
`self.random`, seeded from the model's seed): some deterministic stream
derived from the seed.  `init_grid` never reads it; `init_roombas` reads it
only in the multi-agent branch (`self.random.choice`). -/
def lcgNext (s : Nat) : Nat := (1103515245 * s + 12345) % 4294967296

def rngOfSeedAux : Nat → Nat → Rng
  | _, 0 => []
  | s, n + 1 => lcgNext s :: rngOfSeedAux (lcgNext s) n

def rngOfSeed (seed : Nat) : Rng := rngOfSeedAux seed 32

/-- `self.random.choice(available_positions)`: one draw from the injected
stream. -/
def pickChoice (inj : Rng) (l : List Pos) : Pos × Rng :=
  (l.getD (inj.headD 0 % l.length) (0, 0), inj.tail)

/-- The multi-agent loop of `RoomModel.init_roombas`: repeatedly choose a
free position from the injected source, make it a charging station and
place an agent there.  (`available_positions` is computed once, before any
Roomba exists, so its Roomba-occupancy filter never removes anything.) -/
def init_roombas_multi : Nat → (Pos → CellState) → List Pos → Rng →
    ((Pos → CellState) × List Pos × Rng)
  | 0, g, _, inj => (g, [], inj)
  | n + 1, g, avail, inj =>
    if avail = [] then (g, [], inj)
    else
      let pr := pickChoice inj avail
      let g2 := setCell g pr.1 CellState.charging_station
      let rest := init_roombas_multi n g2 (avail.erase pr.1) pr.2
      (rest.1, pr.1 :: rest.2.1, rest.2.2)

/-- `RoomModel.__init__` for the state the claims inspect: `running := True`,
`current_time := 0`, then `init_grid` (drawing from the *global* generator
`rng`) and `init_roombas` (drawing, in the multi-agent branch only, from the
*injected* seeded source).  No configuration check of any kind is
performed. -/
def constructModel (cfg : RoomConfig) (seed : Nat) (rng : Rng) : RoomModelState :=
  let gi := init_grid cfg rng
  let inj := rngOfSeed seed
  if cfg.n_agents = 1 then
    { width := cfg.width
      height := cfg.height
      n_agents := cfg.n_agents
      max_time := cfg.max_time
      current_time := 0
      running := true
      grid := setCell gi.grid (1, 1) CellState.charging_station
      clean_cells_count := gi.clean_cells_count
      initial_dirty_cells := gi.initial_dirty_cells
      roomba_positions := [(1, 1)] }
  else
    let avail := (allPositions cfg.width cfg.height).filter
      (fun p => decide (gi.grid p ≠ CellState.obstacle))
    let r := init_roombas_multi cfg.n_agents gi.grid avail inj
    { width := cfg.width
      height := cfg.height
      n_agents := cfg.n_agents
      max_time := cfg.max_time
      current_time := 0
      running := true
      grid := r.1
      clean_cells_count := gi.clean_cells_count
      initial_dirty_cells := gi.initial_dirty_cells
      roomba_positions := r.2.1 }

/-! ## Derived notions and concrete instances used by the claims -/

/-- Modelled from the spec: `classificationAt(worldPos)` (§4.1), the read
accessor of the SpatialKnowledgeStore, which the source code never defines
(the knowledge matrix is write-only in `roomba.py`).  Per the spec the store
is "indexed by world position" around a movable centre, so the entry for
`worldPos` is the matrix entry whose offset from `matrix_center` equals the
offset of `worldPos` from the agent's current position. -/
def classificationAt (st : RState) (wp : Pos) : CellKnowledge :=
  kmGet st.knowledge_matrix ((st.matrix_center.1 : Int) + (wp.1 - st.pos.1))
    ((st.matrix_center.2 : Int) + (wp.2 - st.pos.2))

/-- Agent states reachable in a simulation: a freshly placed agent, an agent
after one `step` tick (for an arbitrary random-choice resolver), or an agent
whose shared grid was mutated in between by the other agents of the
schedule. -/
inductive Reachable : RState → Prop
  | init (w : World) (p : Pos) : Reachable (initialRoomba w p)
  | tick (st : RState) (choice : List Pos → Pos) :
      Reachable st → Reachable (step choice st).1
  | world_change (st : RState) (w : World) :
      Reachable st → Reachable { st with world := w }

/-- 3×3 obstacle-free grid used against the path planner. -/
def w3clean : World := { width := 3, height := 3, cell := fun _ => CellState.clean }

/-- 5×5 grid, dirty at `(1, 1)` and `(2, 1)`, used against the knowledge
store. -/
def w5c2 : World :=
  { width := 5, height := 5
    cell := fun p => if p = (1, 1) ∨ p = (2, 1) then CellState.dirty else CellState.clean }

/-- Fresh agent at `(1, 1)` of `w5c2` after its first sensing pass. -/
def stc2a : RState := update_knowledge (initialRoomba w5c2 ((1 : Int), (1 : Int)))

/-- ... and after then moving onto the dirty cell `(2, 1)` (whose sensing
pass runs inside `move`). -/
def stc2b : RState := (move stc2a ((2 : Int), (1 : Int))).1

/-- 3×3 grid, dirty only at `(1, 2)`. -/
def w3dirty : World :=
  { width := 3, height := 3
    cell := fun p => if p = (1, 2) then CellState.dirty else CellState.clean }

/-- Agent at `(1, 1)` of `w3dirty` that has sensed the adjacent dirty cell
`(1, 2)` into `dirty_cells_memory`. -/
def stc3a : RState := update_knowledge (initialRoomba w3dirty ((1 : Int), (1 : Int)))

/-- The same agent after another agent cleaned `(1, 2)` in the shared
grid. -/
def stc3b : RState :=
  { stc3a with
    world := { stc3a.world with
               cell := setCell stc3a.world.cell ((1 : Int), (2 : Int)) CellState.clean } }

/-- 2×2 grid that walls the agent at `(0, 0)` in with obstacles: both
in-bounds neighbours are obstacles, the agent's own cell is dirty, `(1, 1)`
is its charger. -/
def w4stuck : World :=
  { width := 2, height := 2
    cell := fun p =>
      if p = (0, 0) then CellState.dirty
      else if p = (1, 1) then CellState.charging_station
      else CellState.obstacle }

/-- Stuck agent: battery 10 (forcing the return branch), no legal move. -/
def stc4 : RState :=
  { initialRoomba w4stuck ((0 : Int), (0 : Int)) with battery := 10, home_charger := (1, 1) }

/-- Agent on the dirty cell `(1, 2)` of `w3dirty` with battery 1, below
`CLEAN_COST = 2`. -/
def stc5 : RState := { initialRoomba w3dirty ((1 : Int), (2 : Int)) with battery := 1 }

/-- 4×4 grid: agent cell `(0, 0)` dirty, charger at `(2, 0)`. -/
def w6grid : World :=
  { width := 4, height := 4
    cell := fun p =>
      if p = (0, 0) then CellState.dirty
      else if p = (2, 0) then CellState.charging_station
      else CellState.clean }

/-- Agent of the forced-return scenario: battery 21, standing on a dirty
cell, charger exactly 2 moves away. -/
def stc6 : RState :=
  { initialRoomba w6grid ((0 : Int), (0 : Int)) with battery := 21, home_charger := (2, 0) }

/-- Stuck agent with battery 0: legal moves exist but none is affordable. -/
def stc4b : RState :=
  { initialRoomba w6grid ((0 : Int), (0 : Int)) with battery := 0, home_charger := (2, 0) }

/-- Agent with a clean current cell and a stale remembered dirty entry, used
to instantiate the amended dirty-memory theorem. -/
def stc3w : RState :=
  { initialRoomba w3clean ((1 : Int), (1 : Int)) with
    dirty_cells_memory := [((1 : Int), (1 : Int)), ((0 : Int), (2 : Int))] }

/-- 2×2 configuration: 40% dirt, no obstacles, one agent (the rationals are
given in raw normal form to stay kernel-evaluable). -/
def cfg8 : RoomConfig :=
  { width := 2, height := 2
    dirty_percent := ⟨2, 5, by decide, by decide⟩
    obstacle_percent := ⟨0, 1, by decide, by decide⟩
    n_agents := 1, max_time := 10 }

/-- Over-full 2×2 configuration: the fractions sum to 8/5 > 1. -/
def cfg9 : RoomConfig :=
  { width := 2, height := 2
    dirty_percent := ⟨4, 5, by decide, by decide⟩
    obstacle_percent := ⟨4, 5, by decide, by decide⟩
    n_agents := 1, max_time := 10 }

/-- Combined projection of every `RState` field the knowledge-matrix
expansion leaves untouched. -/
def agentFull (st : RState) :
    World × Int × Pos × Pos × RoombaActions × Nat × Int × List Pos × List Pos × List Pos :=
  (st.world, st.battery, st.pos, st.home_charger, st.last_action, st.movements,
    st.BATTERY_CRITICAL, st.dirty_cells_memory, st.visited_cells, st.explored_cells)

/-- Combined projection of the agent fields no sensing pass touches. -/
def agentCore (st : RState) : World × Int × Pos × Pos × Int :=
  (st.world, st.battery, st.pos, st.home_charger, st.BATTERY_CRITICAL)

/-! ## Frame lemmas for the sensing pass -/

theorem expand_agentFull (st : RState) (d : KDirection) :
    agentFull (expand_knowledge_matrix st d) = agentFull st := by
  cases d <;> rfl

theorem expandStage_agentFull (st : RState) (mx my : Nat) :
    agentFull (expandStage st mx my) = agentFull st := by
  unfold expandStage
  rw [apply_ite agentFull, expand_agentFull, ite_self,
    apply_ite agentFull, expand_agentFull, ite_self,
    apply_ite agentFull, expand_agentFull, ite_self,
    apply_ite agentFull, expand_agentFull, ite_self]

theorem senseCurrent_agentCore (st : RState) (mi mj : Int) :
    agentCore (senseCurrent st mi mj) = agentCore st := by
  unfold senseCurrent
  split <;> rfl

theorem senseAdjacent_agentCore (st : RState) (mi mj : Int) (wp : Pos) :
    agentCore (senseAdjacent st mi mj wp) = agentCore st := by
  unfold senseAdjacent
  split <;> rfl

theorem expandStage_agentCore (st : RState) (mx my : Nat) :
    agentCore (expandStage st mx my) = agentCore st :=
  congrArg
    (fun t : World × Int × Pos × Pos × RoombaActions × Nat × Int ×
        List Pos × List Pos × List Pos =>
      (t.1, t.2.1, t.2.2.1, t.2.2.2.1, t.2.2.2.2.2.2.1))
    (expandStage_agentFull st mx my)

theorem update_knowledge_agentCore (st : RState) :
    agentCore (update_knowledge st) = agentCore st := by
  simp only [update_knowledge]
  rw [senseAdjacent_agentCore, senseAdjacent_agentCore, senseAdjacent_agentCore,
    senseAdjacent_agentCore, senseCurrent_agentCore, expandStage_agentCore]
  rfl

theorem update_knowledge_world (st : RState) : (update_knowledge st).world = st.world :=
  congrArg (fun t : World × Int × Pos × Pos × Int => t.1) (update_knowledge_agentCore st)

theorem update_knowledge_battery (st : RState) : (update_knowledge st).battery = st.battery :=
  congrArg (fun t : World × Int × Pos × Pos × Int => t.2.1) (update_knowledge_agentCore st)

theorem update_knowledge_pos (st : RState) : (update_knowledge st).pos = st.pos :=
  congrArg (fun t : World × Int × Pos × Pos × Int => t.2.2.1) (update_knowledge_agentCore st)

theorem update_knowledge_home (st : RState) :
    (update_knowledge st).home_charger = st.home_charger :=
  congrArg (fun t : World × Int × Pos × Pos × Int => t.2.2.2.1) (update_knowledge_agentCore st)

theorem update_knowledge_critical (st : RState) :
    (update_knowledge st).BATTERY_CRITICAL = st.BATTERY_CRITICAL :=
  congrArg (fun t : World × Int × Pos × Pos × Int => t.2.2.2.2) (update_knowledge_agentCore st)

/-! ## Membership and list lemmas -/

theorem mem_insertPos {p q : Pos} {l : List Pos} :
    p ∈ insertPos q l ↔ p ∈ l ∨ p = q := by
  unfold insertPos
  split
  · next h =>
    constructor
    · exact fun hp => Or.inl hp
    · rintro (hp | rfl)
      · exact hp
      · exact h
  · simp [List.mem_append]

theorem not_mem_removePos (p : Pos) (l : List Pos) : p ∉ removePos p l := by
  simp [removePos]

theorem mem_get_possible_moves {st : RState} {p : Pos} (h : p ∈ get_possible_moves st) :
    is_valid_position st p = true ∧ st.world.cell p ≠ CellState.obstacle := by
  simp only [get_possible_moves, List.mem_filterMap, dirs4] at h
  obtain ⟨d, -, hp⟩ := h
  split at hp
  · next hc =>
    rw [Option.some.injEq] at hp
    subst hp
    rw [Bool.and_eq_true, decide_eq_true_eq] at hc
    exact hc
  · exact absurd hp (by simp)

theorem get_possible_moves_congr {st1 st2 : RState}
    (hw : st1.world = st2.world) (hp : st1.pos = st2.pos) :
    get_possible_moves st1 = get_possible_moves st2 := by
  unfold get_possible_moves is_valid_position
  rw [hw, hp]

theorem get_cell_at_pos_congr {st1 st2 : RState} (hw : st1.world = st2.world) (p : Pos) :
    get_cell_at_pos st1 p = get_cell_at_pos st2 p := by
  unfold get_cell_at_pos is_valid_position
  rw [hw]

theorem mem_insertSortedMove {x a : Int × Pos} {l : List (Int × Pos)} :
    a ∈ insertSortedMove x l ↔ a = x ∨ a ∈ l := by
  induction l with
  | nil => simp [insertSortedMove]
  | cons y ys ih =>
    unfold insertSortedMove
    split
    · simp [List.mem_cons]
    · simp only [List.mem_cons, ih]
      tauto

theorem mem_sortPairs {a : Int × Pos} {l : List (Int × Pos)} :
    a ∈ sortPairs l ↔ a ∈ l := by
  induction l with
  | nil => simp [sortPairs]
  | cons x xs ih =>
    show a ∈ insertSortedMove x (sortPairs xs) ↔ _
    rw [mem_insertSortedMove, ih, List.mem_cons]

theorem length_insertSortedMove (x : Int × Pos) (l : List (Int × Pos)) :
    (insertSortedMove x l).length = l.length + 1 := by
  induction l with
  | nil => rfl
  | cons y ys ih =>
    unfold insertSortedMove
    split
    · rfl
    · simp [ih]

theorem length_sortPairs (l : List (Int × Pos)) : (sortPairs l).length = l.length := by
  induction l with
  | nil => rfl
  | cons x xs ih =>
    show (insertSortedMove x (sortPairs xs)).length = _
    rw [length_insertSortedMove, ih, List.length_cons]

theorem mem_sortedMoves {st : RState} {pm : List Pos} {q : Pos}
    (h : q ∈ sortedMoves st pm) : q ∈ pm := by
  simp only [sortedMoves, List.mem_map] at h
  obtain ⟨e, he, rfl⟩ := h
  rw [mem_sortPairs, List.mem_map] at he
  obtain ⟨p, hp, rfl⟩ := he
  exact hp

theorem sortedMoves_length (st : RState) (pm : List Pos) :
    (sortedMoves st pm).length = pm.length := by
  simp [sortedMoves, length_sortPairs]

/-! ## Action primitive lemmas -/

theorem manhattan_nonneg (a b : Pos) : 0 ≤ manhattan a b :=
  add_nonneg (abs_nonneg _) (abs_nonneg _)

theorem manhattan_self (a : Pos) : manhattan a a = 0 := by
  simp [manhattan]

theorem move_fail_iff (st : RState) (p : Pos) :
    (move st p).2 = false ↔
      st.battery < MOVE_COST ∨ is_valid_position st p = false ∨
        st.world.cell p = CellState.obstacle := by
  unfold move
  split_ifs with h1 h2 h3
  · simp [h1]
  · simp [h2]
  · simp [h3]
  · simp [h1, h2, h3]

theorem move_fail_id (st : RState) (p : Pos) (h : (move st p).2 = false) :
    (move st p).1 = st := by
  unfold move at h ⊢
  split_ifs at h ⊢
  · rfl
  · rfl
  · rfl

theorem move_success (st : RState) (p : Pos) (hb : MOVE_COST ≤ st.battery)
    (hv : is_valid_position st p = true) (ho : st.world.cell p ≠ CellState.obstacle) :
    (move st p).2 = true := by
  unfold move
  rw [if_neg (not_lt.mpr hb), if_neg (by simp [hv]), if_neg ho]

theorem move_battery (st : RState) (p : Pos) :
    (move st p).1.battery = st.battery ∨
      ((move st p).1.battery = st.battery - MOVE_COST ∧ MOVE_COST ≤ st.battery) := by
  unfold move
  split_ifs with h1 h2 h3
  · exact Or.inl rfl
  · exact Or.inl rfl
  · exact Or.inl rfl
  · refine Or.inr ⟨?_, not_lt.mp h1⟩
    rw [update_knowledge_battery]

theorem move_batteryOK (st : RState) (p : Pos) (h0 : 0 ≤ st.battery)
    (h1 : st.battery ≤ 100) :
    0 ≤ (move st p).1.battery ∧ (move st p).1.battery ≤ 100 := by
  rcases move_battery st p with h | ⟨h, hc⟩
  · rw [h]
    exact ⟨h0, h1⟩
  · rw [h]
    simp only [MOVE_COST] at hc ⊢
    omega

theorem clean_fail_id (st : RState) (h : (clean_current_cell st).2 = false) :
    (clean_current_cell st).1 = st := by
  unfold clean_current_cell at h ⊢
  split_ifs at h ⊢
  · rfl
  · split at h
    · simp at h
    · rfl

theorem clean_battery (st : RState) :
    (clean_current_cell st).1.battery = st.battery ∨
      ((clean_current_cell st).1.battery = st.battery - 1 ∧ 0 < st.battery) := by
  unfold clean_current_cell
  split_ifs with h1
  · exact Or.inl rfl
  · split
    · exact Or.inr ⟨rfl, not_le.mp h1⟩
    · exact Or.inl rfl

theorem clean_batteryOK (st : RState) (h0 : 0 ≤ st.battery) (h1 : st.battery ≤ 100) :
    0 ≤ (clean_current_cell st).1.battery ∧ (clean_current_cell st).1.battery ≤ 100 := by
  rcases clean_battery st with h | ⟨h, hc⟩ <;> rw [h] <;> omega

theorem charge_batteryOK (st : RState) (h0 : 0 ≤ st.battery) :
    0 ≤ (charge_battery st).1.battery ∧ (charge_battery st).1.battery ≤ 100 ∨
      (charge_battery st).1.battery = st.battery := by
  unfold charge_battery
  split
  · simp only [CHARGE_RATE]
    left
    omega
  · exact Or.inr rfl

theorem tryMoves_none_of_lowBattery (l : List Pos) (st : RState)
    (h : st.battery < MOVE_COST) : tryMoves l st = none := by
  induction l with
  | nil => rfl
  | cons p rest ih =>
    unfold tryMoves
    rw [if_neg (not_le.mpr h)]
    exact ih

theorem tryMoves_batteryOK (l : List Pos) :
    ∀ st st2 : RState, 0 ≤ st.battery → st.battery ≤ 100 →
      tryMoves l st = some st2 → 0 ≤ st2.battery ∧ st2.battery ≤ 100 := by
  induction l with
  | nil => intro st st2 _ _ h; exact absurd h (by simp [tryMoves])
  | cons p rest ih =>
    intro st st2 h0 h1 h
    unfold tryMoves at h
    split_ifs at h with hb hs
    · rw [Option.some.injEq] at h
      subst h
      exact move_batteryOK st p h0 h1
    · obtain ⟨hm0, hm1⟩ := move_batteryOK st p h0 h1
      exact ih _ st2 hm0 hm1 h
    · exact ih st st2 h0 h1 h

theorem path_cost_nonneg (st : RState) : 0 ≤ path_cost_to_charger st := by
  unfold path_cost_to_charger
  split
  · simp [MOVE_COST]
  · exact mul_nonneg (manhattan_nonneg _ _) (by norm_num [MOVE_COST])

/-! ## Lemmas about the step branch cascade -/

theorem pathMoveStep_batteryOK (st : RState) (st2 : RState) (h0 : 0 ≤ st.battery)
    (h1 : st.battery ≤ 100) (h : pathMoveStep st = some st2) :
    0 ≤ st2.battery ∧ st2.battery ≤ 100 := by
  simp only [pathMoveStep] at h
  split_ifs at h with hc hm
  rw [Option.some.injEq] at h
  subst h
  exact move_batteryOK st _ h0 h1

theorem returnStep_batteryOK (st : RState) (r : RState × Branch) (h0 : 0 ≤ st.battery)
    (h1 : st.battery ≤ 100) (h : returnStep st = some r) :
    0 ≤ r.1.battery ∧ r.1.battery ≤ 100 := by
  simp only [returnStep] at h
  split_ifs at h with hsr hpm
  · split at h
    · next st2 hp =>
      rw [Option.some.injEq] at h
      subst h
      exact pathMoveStep_batteryOK st st2 h0 h1 hp
    · exact absurd h (by simp)
  · split at h
    · next st2 hp =>
      rw [Option.some.injEq] at h
      subst h
      exact pathMoveStep_batteryOK st st2 h0 h1 hp
    · split at h
      · next st2 ht =>
        rw [Option.some.injEq] at h
        subst h
        exact tryMoves_batteryOK _ st st2 h0 h1 ht
      · rw [Option.some.injEq] at h
        subst h
        exact ⟨h0, h1⟩

theorem stepRest_batteryOK (choice : List Pos → Pos) (st : RState) (h0 : 0 ≤ st.battery)
    (h1 : st.battery ≤ 100) :
    0 ≤ (stepRest choice st).1.battery ∧ (stepRest choice st).1.battery ≤ 100 := by
  rcases hcc : clean_current_cell st with ⟨st2, b⟩
  have hb2 : 0 ≤ st2.battery ∧ st2.battery ≤ 100 := by
    have := clean_batteryOK st h0 h1
    rw [hcc] at this
    exact this
  cases b
  · simp only [stepRest, hcc]
    split
    · next r hr =>
      split_ifs at hr with hd hl
      rw [Option.some.injEq] at hr
      subst hr
      exact move_batteryOK st2 _ hb2.1 hb2.2
    · split
      · next r hr =>
        split_ifs at hr with hf hl
        rw [Option.some.injEq] at hr
        subst hr
        exact move_batteryOK st2 _ hb2.1 hb2.2
      · split_ifs with hpm
        · exact move_batteryOK st2 _ hb2.1 hb2.2
        · exact hb2
  · simp only [stepRest, hcc]
    exact hb2

theorem step_batteryOK (choice : List Pos → Pos) (st : RState) (h0 : 0 ≤ st.battery)
    (h1 : st.battery ≤ 100) :
    0 ≤ (step choice st).1.battery ∧ (step choice st).1.battery ≤ 100 := by
  have hu0 : 0 ≤ (update_knowledge st).battery := by rw [update_knowledge_battery]; exact h0
  have hu1 : (update_knowledge st).battery ≤ 100 := by rw [update_knowledge_battery]; exact h1
  simp only [step]
  split_ifs with hc
  · rcases charge_batteryOK (update_knowledge st) hu0 with h | h
    · exact h
    · rw [h]
      exact ⟨hu0, hu1⟩
  · split
    · next r hr => exact returnStep_batteryOK _ r hu0 hu1 hr
    · exact stepRest_batteryOK choice (update_knowledge st) hu0 hu1

theorem tryMoves_head_success (st : RState) (q : Pos) (rest : List Pos)
    (hb : MOVE_COST ≤ st.battery) (hmv : (move st q).2 = true) :
    tryMoves (q :: rest) st = some (move st q).1 := by
  unfold tryMoves
  rw [if_pos hb, if_pos hmv]

/-- When the agent wants to return, can afford a move and has at least one
legal neighbour, the return branch always acts with a `returnMove` (either
along the planned path or through the emergency ranking). -/
theorem returnStep_returnMove (st : RState) (hsr : should_return_to_charger st = true)
    (hb : MOVE_COST ≤ st.battery) (hpm : get_possible_moves st ≠ []) :
    ∃ st2, returnStep st = some (st2, Branch.returnMove) := by
  simp only [returnStep]
  rw [if_pos hsr]
  cases hp : pathMoveStep st with
  | some st2 => exact ⟨st2, rfl⟩
  | none =>
    rw [if_neg hpm]
    obtain ⟨q, rest, hsm⟩ : ∃ q rest, sortedMoves st (get_possible_moves st) = q :: rest := by
      cases hs : sortedMoves st (get_possible_moves st) with
      | nil =>
        have := sortedMoves_length st (get_possible_moves st)
        rw [hs] at this
        exact absurd (List.length_eq_zero.mp this.symm) hpm
      | cons q rest => exact ⟨q, rest, rfl⟩
    have hq : q ∈ get_possible_moves st := mem_sortedMoves (hsm ▸ List.mem_cons_self q rest)
    obtain ⟨hv, ho⟩ := mem_get_possible_moves hq
    rw [hsm, tryMoves_head_success st q rest hb (move_success st q hb hv ho)]
    exact ⟨(move st q).1, rfl⟩

/-- When the agent wants to return but cannot afford any move while legal
neighbours exist, the return branch relaxes `BATTERY_CRITICAL` by 5 and
stops. -/
theorem returnStep_stuck (st : RState) (hsr : should_return_to_charger st = true)
    (hb : st.battery < MOVE_COST) (hpm : get_possible_moves st ≠ []) :
    returnStep st =
      some ({ st with BATTERY_CRITICAL := st.BATTERY_CRITICAL + 5 }, Branch.returnStuck) := by
  have hpath : pathMoveStep st = none := by
    simp only [pathMoveStep]
    rw [if_neg]
    rintro ⟨-, hple⟩
    exact absurd hb (not_lt.mpr hple)
  simp only [returnStep]
  rw [if_pos hsr, hpath, if_neg hpm, tryMoves_none_of_lowBattery _ st hb]

/-! ## Helpers for the dirty-memory claim -/

theorem expandStage_pos (st : RState) (mx my : Nat) : (expandStage st mx my).pos = st.pos :=
  congrArg
    (fun t : World × Int × Pos × Pos × RoombaActions × Nat × Int ×
        List Pos × List Pos × List Pos => t.2.2.1)
    (expandStage_agentFull st mx my)

theorem expandStage_world (st : RState) (mx my : Nat) :
    (expandStage st mx my).world = st.world :=
  congrArg
    (fun t : World × Int × Pos × Pos × RoombaActions × Nat × Int ×
        List Pos × List Pos × List Pos => t.1)
    (expandStage_agentFull st mx my)

theorem expandStage_memory (st : RState) (mx my : Nat) :
    (expandStage st mx my).dirty_cells_memory = st.dirty_cells_memory :=
  congrArg
    (fun t : World × Int × Pos × Pos × RoombaActions × Nat × Int ×
        List Pos × List Pos × List Pos => t.2.2.2.2.2.2.2.1)
    (expandStage_agentFull st mx my)

theorem senseCurrent_clean_not_mem {st : RState} (mi mj : Int)
    (hc : get_cell_at_pos st st.pos = some CellState.clean) :
    st.pos ∉ (senseCurrent st mi mj).dirty_cells_memory := by
  unfold senseCurrent
  rw [hc]
  exact not_mem_removePos _ _

theorem senseAdjacent_not_mem {st : RState} {mi mj : Int} {wp p : Pos}
    (h : p ∉ st.dirty_cells_memory) (hne : p ≠ wp) :
    p ∉ (senseAdjacent st mi mj wp).dirty_cells_memory := by
  unfold senseAdjacent
  split <;> try exact h
  intro hmem
  rcases mem_insertPos.mp hmem with h1 | h1
  · exact h h1
  · exact hne h1

theorem mem_of_mem_removePos {p q : Pos} {l : List Pos} (h : p ∈ removePos q l) : p ∈ l :=
  List.mem_of_mem_filter h

theorem senseCurrent_world (s : RState) (mi mj : Int) :
    (senseCurrent s mi mj).world = s.world :=
  congrArg (fun t : World × Int × Pos × Pos × Int => t.1) (senseCurrent_agentCore s mi mj)

theorem senseAdjacent_world (s : RState) (mi mj : Int) (wp : Pos) :
    (senseAdjacent s mi mj wp).world = s.world :=
  congrArg (fun t : World × Int × Pos × Pos × Int => t.1) (senseAdjacent_agentCore s mi mj wp)

theorem gcp_senseCurrent (s : RState) (mi mj : Int) (q : Pos) :
    get_cell_at_pos (senseCurrent s mi mj) q = get_cell_at_pos s q :=
  get_cell_at_pos_congr (senseCurrent_world s mi mj) q

theorem gcp_senseAdjacent (s : RState) (mi mj : Int) (wp q : Pos) :
    get_cell_at_pos (senseAdjacent s mi mj wp) q = get_cell_at_pos s q :=
  get_cell_at_pos_congr (senseAdjacent_world s mi mj wp) q

theorem gcp_expandStage (s : RState) (mx my : Nat) (q : Pos) :
    get_cell_at_pos (expandStage s mx my) q = get_cell_at_pos s q :=
  get_cell_at_pos_congr (expandStage_world s mx my) q

/-- A position present in the memory after a current-cell sense was either
there before, or is the current position and was just sensed dirty. -/
theorem senseCurrent_mem_of {s : RState} {mi mj : Int} {p : Pos}
    (h : p ∈ (senseCurrent s mi mj).dirty_cells_memory) :
    p ∈ s.dirty_cells_memory ∨
      (p = s.pos ∧ get_cell_at_pos s s.pos = some CellState.dirty) := by
  unfold senseCurrent at h
  split at h
  · exact Or.inl h
  · exact Or.inl h
  · exact Or.inl h
  · rename_i hcell
    rcases mem_insertPos.mp h with h1 | h1
    · exact Or.inl h1
    · exact Or.inr ⟨h1, hcell⟩
  · exact Or.inl (mem_of_mem_removePos h)

/-- A position present in the memory after an adjacent-cell sense was either
there before, or is that neighbour and was just sensed dirty. -/
theorem senseAdjacent_mem_of {s : RState} {mi mj : Int} {wp p : Pos}
    (h : p ∈ (senseAdjacent s mi mj wp).dirty_cells_memory) :
    p ∈ s.dirty_cells_memory ∨
      (p = wp ∧ get_cell_at_pos s wp = some CellState.dirty) := by
  unfold senseAdjacent at h
  split at h
  · exact Or.inl h
  · exact Or.inl h
  · exact Or.inl h
  · rename_i hcell
    rcases mem_insertPos.mp h with h1 | h1
    · exact Or.inl h1
    · exact Or.inr ⟨h1, hcell⟩
  · exact Or.inl h

/-- Additions to `dirty_cells_memory` happen only through sensing a dirty
cell: any position newly present after a sensing pass was sensed `Dirty`
(as the current cell or as one of the four neighbours) at that pass. -/
theorem update_knowledge_new_mem_dirty (st : RState) (p : Pos)
    (hmem : p ∈ (update_knowledge st).dirty_cells_memory)
    (hnew : p ∉ st.dirty_cells_memory) :
    get_cell_at_pos st p = some CellState.dirty := by
  simp only [update_knowledge] at hmem
  rcases senseAdjacent_mem_of hmem with hmem | ⟨rfl, hc⟩
  · rcases senseAdjacent_mem_of hmem with hmem | ⟨rfl, hc⟩
    · rcases senseAdjacent_mem_of hmem with hmem | ⟨rfl, hc⟩
      · rcases senseAdjacent_mem_of hmem with hmem | ⟨rfl, hc⟩
        · rcases senseCurrent_mem_of hmem with hmem | ⟨rfl, hc⟩
          · rw [expandStage_memory] at hmem
            exact absurd hmem hnew
          · rw [gcp_expandStage, expandStage_pos] at hc
            rw [expandStage_pos]
            exact hc
        · rw [gcp_senseCurrent, gcp_expandStage] at hc
          exact hc
      · rw [gcp_senseAdjacent, gcp_senseCurrent, gcp_expandStage] at hc
        exact hc
    · rw [gcp_senseAdjacent, gcp_senseAdjacent, gcp_senseCurrent, gcp_expandStage] at hc
      exact hc
  · rw [gcp_senseAdjacent, gcp_senseAdjacent, gcp_senseAdjacent, gcp_senseCurrent,
      gcp_expandStage] at hc
    exact hc

theorem pos_ne_n (p : Pos) : p ≠ (p.1, p.2 + 1) := by
  intro h
  rw [Prod.ext_iff] at h
  exact absurd h.2 (by omega)

theorem pos_ne_s (p : Pos) : p ≠ (p.1, p.2 - 1) := by
  intro h
  rw [Prod.ext_iff] at h
  exact absurd h.2 (by omega)

theorem pos_ne_e (p : Pos) : p ≠ (p.1 + 1, p.2) := by
  intro h
  rw [Prod.ext_iff] at h
  exact absurd h.1 (by omega)

theorem pos_ne_w (p : Pos) : p ≠ (p.1 - 1, p.2) := by
  intro h
  rw [Prod.ext_iff] at h
  exact absurd h.1 (by omega)

/-! ## Helpers for the driver claims -/

theorem length_allPositions (w h : Nat) : (allPositions w h).length = w * h := by
  unfold allPositions
  induction w with
  | zero => simp
  | succ n ih =>
    rw [List.range_succ, List.flatMap_append, List.length_append, ih]
    simp [Nat.succ_mul]

theorem init_grid_dirty_le (cfg : RoomConfig) (g : Rng) :
    (init_grid cfg g).initial_dirty_cells ≤ cfg.width * cfg.height := by
  have key : ∀ (dc : Int) (n : Nat), dc ≤ (n : Int) →
      (if 0 < dc then dc.toNat else 0) ≤ n := by
    intro dc n hdc
    split_ifs
    · exact Int.toNat_le.mpr hdc
    · exact Nat.zero_le _
  have hlen : (if cfg.n_agents = 1 then
      (allPositions cfg.width cfg.height).erase ((1 : Int), (1 : Int))
      else allPositions cfg.width cfg.height).length ≤ cfg.width * cfg.height := by
    split_ifs
    · exact le_trans (List.Sublist.length_le (List.erase_sublist _ _))
        (le_of_eq (length_allPositions _ _))
    · exact le_of_eq (length_allPositions _ _)
  simp only [init_grid]
  refine le_trans (key _ _ (le_trans (min_le_right _ _) (by exact_mod_cast hlen))) le_rfl

/-! ## Claim theorems -/

/-- C1.  The claim says `findPath(A, B)` on an obstacle-free grid returns a
shortest path with `length - 1` equal to the Manhattan distance.  The code
violates it: `find_path_to_target` relaxes `self.get_possible_moves()` — the
neighbours of the agent's *own fixed position* — instead of the neighbours
of the node being expanded, so on the obstacle-free 3×3 grid `w3clean`, from
`A = (0,0)` to `B = (2,0)` (Manhattan distance 2) it returns `None` instead
of a 3-cell path.  The function's own docstring calls it an A*
implementation, so this is a slip in the code, not intended behaviour. -/
theorem c1_pathfinding_code_bug :
    (∀ p : Pos, w3clean.cell p = CellState.clean) ∧
    manhattan ((0 : Int), (0 : Int)) ((2 : Int), (0 : Int)) = 2 ∧
    find_path_to_target (initialRoomba w3clean ((0 : Int), (0 : Int)))
      ((2 : Int), (0 : Int)) = none :=
  ⟨fun _ => rfl, by decide, by decide⟩

/-- C2.  The claim says the knowledge store is indexed by world position:
after a sensing pass at `P` the stored classification for `P` equals the
sensed state and no other position's record is overwritten.  The code
violates it: `update_knowledge` writes at indices around the *stale*
`matrix_center` captured before expansion and never moves the centre with
the agent.  Concretely, on `w5c2` (dirty at `(1,1)` and `(2,1)`): after the
fresh agent's first pass at `(1,1)`, the entry at the centre-anchored index
of its own position still reads `UNKNOWN` although the cell was sensed
`DIRTY`; the neighbour `(2,1)` was recorded `DIRTY` at matrix index `(2,1)`;
and after moving to `(2,1)` the next pass overwrites that same index with
`EMPTY` (the state of world position `(2,0)`) while `(2,1)` is still dirty
in the world. -/
theorem c2_knowledge_code_bug :
    get_cell_at_pos (initialRoomba w5c2 ((1 : Int), (1 : Int))) ((1 : Int), (1 : Int)) =
      some CellState.dirty ∧
    classificationAt stc2a ((1 : Int), (1 : Int)) = CellKnowledge.UNKNOWN ∧
    kmGet stc2a.knowledge_matrix 2 1 = CellKnowledge.DIRTY ∧
    kmGet stc2b.knowledge_matrix 2 1 = CellKnowledge.EMPTY ∧
    stc2b.world.cell ((2 : Int), (1 : Int)) = CellState.dirty := by
  refine ⟨by decide, by decide, by decide, by decide, by decide⟩

/-- C3 counterexample.  The claim says a sensing pass that observes a
remembered position *as an adjacent cell* and finds it no longer dirty
removes it from `dirtyMemory`.  In `stc3b` the agent at `(1,1)` remembers
the adjacent `(1,2)` as dirty, another agent has since cleaned it, and the
next sensing pass still leaves `(1,2)` in `dirty_cells_memory` (the
adjacent-cell branch of `update_knowledge` records `EMPTY` without touching
the memory set). -/
theorem c3_counterexample :
    ((1 : Int), (2 : Int)) ∈ stc3a.dirty_cells_memory ∧
    manhattan stc3b.pos ((1 : Int), (2 : Int)) = 1 ∧
    get_cell_at_pos stc3b ((1 : Int), (2 : Int)) = some CellState.clean ∧
    ((1 : Int), (2 : Int)) ∈ (update_knowledge stc3b).dirty_cells_memory := by
  refine ⟨by decide, by decide, by decide, by decide⟩

/-- C3 amended.  Positions enter `dirty_cells_memory` only by being sensed
`Dirty`: any position newly present after a sensing pass was sensed dirty at
that pass, and a clean never adds an entry.  Synchronisation on non-dirty
senses holds only for the agent's *own* cell: a sensing pass whose current
cell reads clean removes that position, and a successful clean removes it as
well; sensing an adjacent cell as no-longer-dirty does *not* remove it (see
the counterexample). -/
theorem c3_amended (st : RState) :
    (∀ p : Pos, p ∈ (update_knowledge st).dirty_cells_memory →
      p ∉ st.dirty_cells_memory → get_cell_at_pos st p = some CellState.dirty) ∧
    (∀ p : Pos, p ∈ (clean_current_cell st).1.dirty_cells_memory →
      p ∈ st.dirty_cells_memory) ∧
    (get_cell_at_pos st st.pos = some CellState.clean →
      st.pos ∉ (update_knowledge st).dirty_cells_memory) ∧
    ((clean_current_cell st).2 = true →
      st.pos ∉ (clean_current_cell st).1.dirty_cells_memory) := by
  refine ⟨update_knowledge_new_mem_dirty st, ?_, ?_, ?_⟩
  · intro p hp
    unfold clean_current_cell at hp
    split_ifs at hp
    · exact hp
    · split at hp
      · exact mem_of_mem_removePos hp
      · exact hp
  · intro hcell
    simp only [update_knowledge]
    apply senseAdjacent_not_mem _ (pos_ne_w st.pos)
    apply senseAdjacent_not_mem _ (pos_ne_e st.pos)
    apply senseAdjacent_not_mem _ (pos_ne_s st.pos)
    apply senseAdjacent_not_mem _ (pos_ne_n st.pos)
    have h5 : get_cell_at_pos
        (expandStage { st with visited_cells := insertPos st.pos st.visited_cells }
          st.matrix_center.1 st.matrix_center.2)
        (expandStage { st with visited_cells := insertPos st.pos st.visited_cells }
          st.matrix_center.1 st.matrix_center.2).pos = some CellState.clean := by
      rw [expandStage_pos, get_cell_at_pos_congr (expandStage_world _ _ _)]
      exact hcell
    have hb := senseCurrent_clean_not_mem (Int.ofNat st.matrix_center.1)
      (Int.ofNat st.matrix_center.2) h5
    rw [expandStage_pos] at hb
    exact hb
  · intro hs
    unfold clean_current_cell at hs ⊢
    split_ifs at hs ⊢ with hb
    split at hs
    · exact not_mem_removePos _ _
    · simp at hs

/-- C3 amended, witness: the fresh agent of `stc3a` added `(1, 2)` during
its first pass only because that cell was dirty; the failed clean of `stc3a`
adds nothing; the agent `stc3w` remembers its own (actually clean) cell and
forgets it on the next sensing pass; and cleaning the dirty cell of `stc5`
removes it from memory. -/
theorem c3_amended_witness :
    get_cell_at_pos (initialRoomba w3dirty ((1 : Int), (1 : Int))) ((1 : Int), (2 : Int)) =
      some CellState.dirty ∧
    ((1 : Int), (2 : Int)) ∈ stc3a.dirty_cells_memory ∧
    stc3w.pos ∉ (update_knowledge stc3w).dirty_cells_memory ∧
    stc5.pos ∉ (clean_current_cell stc5).1.dirty_cells_memory :=
  ⟨(c3_amended (initialRoomba w3dirty ((1 : Int), (1 : Int)))).1 ((1 : Int), (2 : Int))
      (by decide) (by decide),
    (c3_amended stc3a).2.1 ((1 : Int), (2 : Int)) (by decide),
    (c3_amended stc3w).2.2.1 (by decide),
    (c3_amended stc5).2.2.2 (by decide)⟩

/-- C4 counterexample.  The claim says an agent in the return branch with
*no* legal adjacent move relaxes `CRITICAL_THRESHOLD` by 5 and stops without
acting.  The code violates it: the `BATTERY_CRITICAL += 5` sits inside
`if possible_moves:`, so with `possible_moves == []` control falls through
to the cleaning branch.  `stc4` (battery 10, walled in on a dirty cell) must
return, has no legal move, and the tick *cleans*: the branch taken is
`clean`, the threshold stays 20, the battery drops to 9 and the grid cell is
mutated. -/
theorem c4_counterexample :
    get_possible_moves stc4 = [] ∧
    should_return_to_charger stc4 = true ∧
    (step (fun _ => ((0 : Int), (0 : Int))) stc4).2 = Branch.clean ∧
    (step (fun _ => ((0 : Int), (0 : Int))) stc4).1.BATTERY_CRITICAL =
      stc4.BATTERY_CRITICAL ∧
    (step (fun _ => ((0 : Int), (0 : Int))) stc4).1.battery = stc4.battery - 1 ∧
    (step (fun _ => ((0 : Int), (0 : Int))) stc4).1.world.cell ((0 : Int), (0 : Int)) =
      CellState.clean := by
  refine ⟨by decide, by decide, by decide, by decide, by decide, by decide⟩

/-- C4 amended.  The `+5` relaxation fires in the *other* stuck situation:
legal adjacent moves exist but none can be executed because the battery is
below the move cost.  Then the agent relaxes `BATTERY_CRITICAL` by 5 and
stops without acting (battery, position and grid untouched); when no legal
adjacent move exists at all, the branch instead falls through to the
cleaning/exploration logic (see the counterexample). -/
theorem c4_amended (st0 : RState) (choice : List Pos → Pos)
    (hne : st0.pos ≠ st0.home_charger)
    (hb : st0.battery < MOVE_COST)
    (hcrit : 0 ≤ st0.BATTERY_CRITICAL)
    (hpm : get_possible_moves st0 ≠ []) :
    (step choice st0).2 = Branch.returnStuck ∧
    (step choice st0).1.BATTERY_CRITICAL = st0.BATTERY_CRITICAL + 5 ∧
    (step choice st0).1.battery = st0.battery ∧
    (step choice st0).1.pos = st0.pos ∧
    (step choice st0).1.world = st0.world := by
  have hpm2 : get_possible_moves (update_knowledge st0) ≠ [] := by
    rw [get_possible_moves_congr (update_knowledge_world st0) (update_knowledge_pos st0)]
    exact hpm
  have hsr : should_return_to_charger (update_knowledge st0) = true := by
    unfold should_return_to_charger
    rw [if_pos]
    rw [update_knowledge_battery, update_knowledge_critical]
    simp only [MOVE_COST] at hb
    omega
  have hstuck := returnStep_stuck (update_knowledge st0) hsr
    (by rw [update_knowledge_battery]; exact hb) hpm2
  have hch : ¬((update_knowledge st0).pos = (update_knowledge st0).home_charger ∧
      (update_knowledge st0).battery < BATTERY_SAFE) := by
    rintro ⟨he, -⟩
    rw [update_knowledge_pos, update_knowledge_home] at he
    exact hne he
  simp only [step]
  rw [if_neg hch, hstuck]
  refine ⟨rfl, ?_, ?_, ?_, ?_⟩
  · show (update_knowledge st0).BATTERY_CRITICAL + 5 = st0.BATTERY_CRITICAL + 5
    rw [update_knowledge_critical]
  · show (update_knowledge st0).battery = st0.battery
    exact update_knowledge_battery st0
  · show (update_knowledge st0).pos = st0.pos
    exact update_knowledge_pos st0
  · show (update_knowledge st0).world = st0.world
    exact update_knowledge_world st0

/-- C4 amended, witness: `stc4b` (battery 0, free neighbours, away from its
charger) relaxes the threshold to 25 and does not act. -/
theorem c4_amended_witness :
    (step (fun _ => ((0 : Int), (0 : Int))) stc4b).2 = Branch.returnStuck ∧
    (step (fun _ => ((0 : Int), (0 : Int))) stc4b).1.BATTERY_CRITICAL =
      stc4b.BATTERY_CRITICAL + 5 ∧
    (step (fun _ => ((0 : Int), (0 : Int))) stc4b).1.battery = stc4b.battery ∧
    (step (fun _ => ((0 : Int), (0 : Int))) stc4b).1.pos = stc4b.pos ∧
    (step (fun _ => ((0 : Int), (0 : Int))) stc4b).1.world = stc4b.world :=
  c4_amended stc4b (fun _ => ((0 : Int), (0 : Int))) (by decide) (by decide)
    (by decide) (by decide)

/-- C5 counterexample.  The claim says `clean()` fails when the battery is
below `CLEAN_COST = 2` and on success decrements the battery by the clean
cost.  The code guards with `battery <= 0` and decrements by 1: `stc5`
(battery 1, on a dirty cell) succeeds and ends at battery 0. -/
theorem c5_counterexample :
    stc5.battery < CLEAN_COST ∧
    (clean_current_cell stc5).2 = true ∧
    (clean_current_cell stc5).1.battery = stc5.battery - 1 := by
  refine ⟨by decide, by decide, by decide⟩

/-- C5 amended.  `clean()` fails — leaving the whole agent and grid state
unchanged — iff the battery is ≤ 0 (not `< CLEAN_COST = 2`) or the current
cell is not dirty; on success it sets the cell to `Clean`, decrements the
battery by 1 (not by `CLEAN_COST`), and removes the position from
`dirty_cells_memory`. -/
theorem c5_amended (st : RState) :
    ((st.battery ≤ 0 ∨ get_cell_at_pos st st.pos ≠ some CellState.dirty) →
      clean_current_cell st = (st, false)) ∧
    (0 < st.battery → get_cell_at_pos st st.pos = some CellState.dirty →
      (clean_current_cell st).2 = true ∧
      (clean_current_cell st).1.world.cell st.pos = CellState.clean ∧
      (clean_current_cell st).1.battery = st.battery - 1 ∧
      st.pos ∉ (clean_current_cell st).1.dirty_cells_memory) := by
  constructor
  · rintro (hb | hc)
    · unfold clean_current_cell
      rw [if_pos hb]
    · unfold clean_current_cell
      split_ifs with hb
      · rfl
      · split
        · next hcell => exact absurd hcell hc
        · rfl
  · intro hb hc
    unfold clean_current_cell
    rw [if_neg (not_le.mpr hb), hc]
    refine ⟨rfl, ?_, rfl, ?_⟩
    · show setCell st.world.cell st.pos CellState.clean st.pos = CellState.clean
      simp [setCell]
    · exact not_mem_removePos _ _

/-- C5 amended, witness: instantiated at `stc5` (success at battery 1) and
at an empty-cell failure. -/
theorem c5_amended_witness :
    ((clean_current_cell stc5).2 = true ∧
      (clean_current_cell stc5).1.world.cell stc5.pos = CellState.clean ∧
      (clean_current_cell stc5).1.battery = stc5.battery - 1 ∧
      stc5.pos ∉ (clean_current_cell stc5).1.dirty_cells_memory) ∧
    clean_current_cell stc3w = (stc3w, false) :=
  ⟨(c5_amended stc5).2 (by decide) (by decide),
    (c5_amended stc3w).1 (Or.inr (by decide))⟩

/-- C6.  Forced return: an agent with battery exactly 21, the default
critical threshold 20, its charger at Manhattan distance 2 (with at least
one legal adjacent move, as "exactly 2 moves away" requires), takes the
return-to-charge branch on the next tick — not charge, clean, pursue or
explore — whatever the world looks like, including a dirty current cell.
(`should_return` holds because `21 ≤ path_cost + 15 + 20` for any
non-negative path cost.) -/
theorem c6_forced_return (st0 : RState) (choice : List Pos → Pos)
    (hb : st0.battery = 21) (hcrit : st0.BATTERY_CRITICAL = 20)
    (hd : manhattan st0.pos st0.home_charger = 2)
    (hpm : get_possible_moves st0 ≠ []) :
    (step choice st0).2 = Branch.returnMove := by
  have hb2 : (update_knowledge st0).battery = 21 := by
    rw [update_knowledge_battery]; exact hb
  have hcr2 : (update_knowledge st0).BATTERY_CRITICAL = 20 := by
    rw [update_knowledge_critical]; exact hcrit
  have hd2 : manhattan (update_knowledge st0).pos (update_knowledge st0).home_charger = 2 := by
    rw [update_knowledge_pos, update_knowledge_home]; exact hd
  have hpm2 : get_possible_moves (update_knowledge st0) ≠ [] := by
    rw [get_possible_moves_congr (update_knowledge_world st0) (update_knowledge_pos st0)]
    exact hpm
  have hch : ¬((update_knowledge st0).pos = (update_knowledge st0).home_charger ∧
      (update_knowledge st0).battery < BATTERY_SAFE) := by
    rintro ⟨he, -⟩
    rw [he, manhattan_self] at hd2
    norm_num at hd2
  have hsr : should_return_to_charger (update_knowledge st0) = true := by
    unfold should_return_to_charger
    rw [hb2, hcr2, if_neg (by norm_num), decide_eq_true_eq]
    have := path_cost_nonneg (update_knowledge st0)
    omega
  obtain ⟨st2, hr⟩ := returnStep_returnMove (update_knowledge st0) hsr
    (by rw [hb2]; norm_num [MOVE_COST]) hpm2
  simp only [step]
  rw [if_neg hch, hr]

/-- C6 witness: the concrete scenario `stc6` — battery 21, standing on a
dirty cell at `(0,0)`, charger at `(2,0)` — moves toward the charger. -/
theorem c6_forced_return_witness :
    (step (fun _ => ((0 : Int), (0 : Int))) stc6).2 = Branch.returnMove :=
  c6_forced_return stc6 (fun _ => ((0 : Int), (0 : Int))) (by decide) (by decide)
    (by decide) (by decide)

/-- C7.  Battery bound: in every reachable agent state — fresh placement,
any number of `step` ticks under any random choices, any interleaved grid
mutation by other agents — the battery stays within `[0, 100]`: charging
clamps with `min 100`, `move` refuses below `MOVE_COST` and
`clean_current_cell` refuses at or below 0. -/
theorem c7_battery_bounds (st : RState) (h : Reachable st) :
    0 ≤ st.battery ∧ st.battery ≤ 100 := by
  induction h with
  | init w p => exact ⟨by norm_num [initialRoomba], by norm_num [initialRoomba]⟩
  | tick st choice _ ih => exact step_batteryOK choice st ih.1 ih.2
  | world_change st w _ ih => exact ih

/-- C7 witness: the bound instantiated at a freshly placed agent. -/
theorem c7_battery_bounds_witness :
    0 ≤ (initialRoomba w3clean ((0 : Int), (0 : Int))).battery ∧
    (initialRoomba w3clean ((0 : Int), (0 : Int))).battery ≤ 100 :=
  c7_battery_bounds (initialRoomba w3clean ((0 : Int), (0 : Int)))
    (Reachable.init w3clean ((0 : Int), (0 : Int)))

/-- C10.  `move(target)` is atomic on failure: it fails exactly when the
battery is below `MOVE_COST`, the target is out of bounds, or the target
cell is an obstacle — and in every failure case it returns the state (the
whole agent record including battery, position, `movements`,
knowledge/memory, and the shared grid) completely unchanged. -/
theorem c10_move_atomic (st : RState) (p : Pos) :
    ((move st p).2 = false ↔
      st.battery < MOVE_COST ∨ is_valid_position st p = false ∨
        st.world.cell p = CellState.obstacle) ∧
    ((move st p).2 = false → (move st p).1 = st) :=
  ⟨move_fail_iff st p, move_fail_id st p⟩

/-- C10 witness: an out-of-bounds move attempt from `stc6` fails and leaves
the state untouched. -/
theorem c10_move_atomic_witness :
    (move stc6 ((5 : Int), (5 : Int))).2 = false ∧
    (move stc6 ((5 : Int), (5 : Int))).1 = stc6 :=
  ⟨by decide, (c10_move_atomic stc6 ((5 : Int), (5 : Int))).2 (by decide)⟩

/-- C8 counterexample.  The claim says two driver constructions with the
same configuration and the same injected seed produce identical initial
grids.  The code violates it: `init_grid` draws its dirty/obstacle samples
from the process-global `random` module, which the injected seed does not
control, so with the same configuration `cfg8` and the same seed 42 but the
global generator in two different states, cell `(0,0)` comes out dirty in
one construction and clean in the other. -/
theorem c8_counterexample :
    (constructModel cfg8 42 [0]).grid ((0 : Int), (0 : Int)) = CellState.dirty ∧
    (constructModel cfg8 42 [1]).grid ((0 : Int), (0 : Int)) = CellState.clean := by
  refine ⟨by decide, by decide⟩

/-- C8 amended.  Initial dirty/obstacle placement is a deterministic
function of the configuration and of the *global* generator state, not of
the injected seed: for a single-agent configuration the whole initial grid
is identical across constructions with any two seeds, as long as the global
generator stream is the same (reproducibility holds per global stream, not
per seed). -/
theorem c8_amended (cfg : RoomConfig) (seed1 seed2 : Nat) (g : Rng)
    (h : cfg.n_agents = 1) :
    (constructModel cfg seed1 g).grid = (constructModel cfg seed2 g).grid := by
  simp only [constructModel, h, if_pos]

/-- C8 amended, witness: seeds 1 and 2 with the same global stream give the
same grid. -/
theorem c8_amended_witness :
    (constructModel cfg8 1 [0]).grid = (constructModel cfg8 2 [0]).grid :=
  c8_amended cfg8 1 2 [0] rfl

/-- C9 counterexample.  The claim says a configuration with
`dirtyFraction + obstacleFraction > 1` is rejected before the simulation
starts.  The code has no validation at all: with `cfg9` (fractions summing
to 8/5) construction completes normally, the model starts with
`running = true`, and the requested cell counts are silently clamped by
`min` (2 dirty cells are placed, then the single remaining free cell
becomes the only obstacle). -/
theorem c9_counterexample :
    (1 : ℚ) < cfg9.dirty_percent + cfg9.obstacle_percent ∧
    (constructModel cfg9 0 [0, 1, 2, 3]).running = true ∧
    (constructModel cfg9 0 [0, 1, 2, 3]).initial_dirty_cells = 2 ∧
    (constructModel cfg9 0 [0, 1, 2, 3]).grid ((0 : Int), (1 : Int)) =
      CellState.obstacle := by
  refine ⟨?_, by decide, by decide, by decide⟩
  simp only [cfg9]
  rw [Rat.mk'_eq_divInt]
  norm_num [Rat.divInt_eq_div]

/-- C9 amended.  Driver construction never rejects a configuration: even
when the fractions sum to more than 1 it completes with `running = true`,
the dirty-cell count having been clamped to the available positions
(`initial_dirty_cells ≤ width × height`). -/
theorem c9_amended (cfg : RoomConfig) (seed : Nat) (g : Rng)
    (h : 1 < cfg.dirty_percent + cfg.obstacle_percent) :
    (constructModel cfg seed g).running = true ∧
    (constructModel cfg seed g).initial_dirty_cells ≤ cfg.width * cfg.height := by
  constructor
  · simp only [constructModel]
    split <;> rfl
  · have hle := init_grid_dirty_le cfg g
    simp only [constructModel]
    split <;> exact hle

/-- C9 amended, witness: instantiated at the over-full `cfg9`. -/
theorem c9_amended_witness :
    (constructModel cfg9 0 [0, 1, 2, 3]).running = true ∧
    (constructModel cfg9 0 [0, 1, 2, 3]).initial_dirty_cells ≤ cfg9.width * cfg9.height :=
  c9_amended cfg9 0 [0, 1, 2, 3] (by
    simp only [cfg9]
    rw [Rat.mk'_eq_divInt]
    norm_num [Rat.divInt_eq_div])

end RoombaSim
